import Mathlib

/-!
# DigiKawsay privacy/governance pipeline — verification development

Shallow embedding of the privacy/anonymization and dual-control governance
pipeline of the DigiKawsay repository, together with the client-side gating
logic of the React frontend.

The frontend components (`ReidentificationPage`, `AuditPage`,
`PrivacyDashboard`, `PolicyDialog`/`GovernancePage`, the zustand stores) are
embedded directly from the source under `src/frontend` and the page sources.
The backend privacy core (`pii_service`, `governance_service`,
`audit_service`) is not part of the source tree available here, so its
operations are modelled from the specification; each such definition carries
a doc comment starting with `Modelled from the spec:`.
-/

namespace DigiKawsay

/-! ## Shared data model: roles and users -/

/-- User roles appearing in the frontend sources (ROLES list of the user
admin page plus the `data_steward` role checked by `ReidentificationPage`
and `GovernancePage`). -/
inductive Role where
  | admin
  | facilitator
  | analyst
  | security_officer
  | privacy_officer
  | data_steward
  | participant
  | sponsor
deriving DecidableEq, Repr

/-- A logged-in user as the frontend sees it: `current_user() -> {id, role}`. -/
structure User where
  id : String
  role : Role
deriving DecidableEq, Repr

/-- Reidentification request statuses (`getStatusBadge` config of
`ReidentificationPage` and spec §4.4). -/
inductive ReqStatus where
  | pending
  | approved
  | denied
  | resolved
  | expired
deriving DecidableEq, Repr

/-- A reidentification request as rendered by `ReidentificationPage`
(the fields its JSX reads). -/
structure ReqView where
  id : String
  pseudonym_id : String
  status : ReqStatus
  requested_by : String
deriving DecidableEq, Repr

/-! ## Frontend: ReidentificationPage capability predicates

Embedded from `src/unnamed/part_005` lines 42–43:
`isDataSteward = user?.role === 'admin' || user?.role === 'data_steward'`
`canResolve = user?.role === 'admin' || user?.role === 'security_officer'`. -/

def isDataSteward (u : User) : Bool :=
  u.role == Role.admin || u.role == Role.data_steward

def canResolve (u : User) : Bool :=
  u.role == Role.admin || u.role == Role.security_officer

/-- Embedded from `src/unnamed/part_005` lines 161 and 189: the approve/deny
buttons render inside the `isDataSteward`-gated pending list, under
`req.status === 'pending' && req.requested_by !== user.id`. -/
def showsApproveDeny (u : User) (req : ReqView) : Bool :=
  isDataSteward u && (req.status == ReqStatus.pending && req.requested_by != u.id)

/-- Embedded from `src/unnamed/part_005` lines 161 and 208: the resolve
button renders inside the `isDataSteward`-gated pending list, under
`req.status === 'approved' && canResolve`. -/
def showsResolve (u : User) (req : ReqView) : Bool :=
  isDataSteward u && (req.status == ReqStatus.approved && canResolve u)

/-! ## Frontend: AuditPage mount behavior

Embedded from `src/unnamed/part_004` (AuditPage). Two mount effects run:
`fetchData` issues `GET /audit/` and `GET /audit/summary?days=30`, and the
filter effect issues `fetchLogs` with the initial filters
`{ action: 'all', resource_type: 'all', user_id: '' }`. React runs both
effects after the first render regardless of which branch of the JSX was
returned, so the role gate at line 73 affects rendering only. -/

structure AuditFilters where
  action : String
  resource_type : String
  user_id : String
deriving DecidableEq, Repr

def initialAuditFilters : AuditFilters :=
  { action := "all", resource_type := "all", user_id := "" }

/-- URL construction of `fetchLogs`: a query parameter is appended for
`action` and `resource_type` when set and not `'all'`, and for `user_id`
when non-empty. -/
def buildLogsUrl (f : AuditFilters) : String :=
  let ps : List String :=
    (if f.action != "" && f.action != "all" then ["action=" ++ f.action] else [])
      ++ (if f.resource_type != "" && f.resource_type != "all" then
            ["resource_type=" ++ f.resource_type] else [])
      ++ (if f.user_id != "" then ["user_id=" ++ f.user_id] else [])
  "/audit/" ++ (if ps.isEmpty then "" else "?" ++ String.intercalate "&" ps)

/-- The role gate of AuditPage line 73:
`user?.role !== 'admin' && user?.role !== 'security_officer'` shows the
restricted card. -/
def auditPageElevated (u : User) : Bool :=
  u.role == Role.admin || u.role == Role.security_officer

inductive AuditRender where
  | restricted
  | fullView
deriving DecidableEq, Repr

/-- The observable mount behavior of AuditPage: the list of GET requests
issued by the mount effects, and which view is rendered. -/
structure AuditMount where
  requests : List String
  render : AuditRender
deriving DecidableEq, Repr

def auditPageMount (u : User) : AuditMount :=
  { requests := ["/audit/", "/audit/summary?days=30", buildLogsUrl initialAuditFilters]
  , render := if auditPageElevated u then AuditRender.fullView else AuditRender.restricted }

/-! ## Frontend: PolicyDialog defaults (CampaignDetailPage.jsx)

Embedded from `src/frontend/src/pages/CampaignDetailPage.jsx` (PolicyDialog,
lines 569–602 of the governance page portion): the privacy-relevant fields of
the policy form and their defaults. -/

structure PolicyPrivacyForm where
  suppress_small_groups : Bool
  min_group_size : Nat
deriving DecidableEq, Repr

/-- The fresh-form defaults: `suppress_small_groups: true, min_group_size: 5`. -/
def policyFormDefault : PolicyPrivacyForm :=
  { suppress_small_groups := true, min_group_size := 5 }

/-- Loading an existing policy into the form:
`suppress_small_groups: policy.suppress_small_groups !== false` and
`min_group_size: policy.min_group_size || 5` (JavaScript `||`, under which a
missing field and the falsy value 0 both fall back to 5). -/
def loadPolicyPrivacyForm (sg : Option Bool) (mgs : Option Nat) : PolicyPrivacyForm :=
  { suppress_small_groups := sg != some false
  , min_group_size := match mgs with
      | none => 5
      | some 0 => 5
      | some n => n }

/-! ## Suppression Service (spec §4.3) -/

/-- Immutable suppression configuration (spec §9: `min_group_size` passed
into the service, default 5). -/
structure SuppressionConfig where
  min_group_size : Nat
deriving DecidableEq, Repr

def defaultSuppressionConfig : SuppressionConfig := { min_group_size := 5 }

/-- An insight as the Suppression Service sees it: a `source_count` and the
derived `suppressed` flag (spec §3). -/
structure Insight where
  id : String
  source_count : Nat
  suppressed : Bool
deriving DecidableEq, Repr

/-- Modelled from the spec: the Suppression Service `evaluate` (the
`pii_service`/`governance_service` backend is not in the source tree).
"an insight is suppressed when its `source_count` (distinct contributing
pseudonyms/participants) is strictly less than the configured minimum group
size (default 5)"; the flag is derived and recomputable at any time. -/
def evaluate (cfg : SuppressionConfig) (i : Insight) : Insight :=
  { i with suppressed := decide (i.source_count < cfg.min_group_size) }

/-- Modelled from the spec: role gating of suppressed-insight visibility
(§4.3): "only elevated roles (admin/security-officer-equivalent) may view
`suppressed` insights at all". The PrivacyDashboard info card
(`src/unnamed/part_003` lines 97–99) names the elevated roles as
admin/security_officer. -/
def canViewSuppressed (r : Role) : Bool :=
  r == Role.admin || r == Role.security_officer

/-- Modelled from the spec: the insight listing returned to a user — "all
other roles must receive the filtered set as if suppressed records do not
exist". -/
def listInsights (r : Role) (xs : List Insight) : List Insight :=
  if canViewSuppressed r then xs else xs.filter (fun i => !i.suppressed)

/-! ## PII Vault (spec §4.2) -/

/-- Entity types of a pseudonym mapping (spec §3). -/
inductive EntityType where
  | email
  | phone
  | name
  | address
  | other
deriving DecidableEq, Repr

/-- A `PseudonymMapping` (spec §3). The pseudonym identifier is stored as
the counter value `pid`; the wire string is `mkPseudonymId pid`, of the
format `P-########`. -/
structure Mapping where
  pid : Nat
  entity_type : EntityType
  original_value : String
  campaign_id : String
deriving DecidableEq, Repr

/-- The PII Vault: the list of mappings together with the next fresh
pseudonym counter. -/
structure Vault where
  mappings : List Mapping
  next : Nat
deriving DecidableEq, Repr

def Mapping.keyMatches (m : Mapping) (value : String) (et : EntityType)
    (cid : String) : Bool :=
  decide (m.original_value = value ∧ m.entity_type = et ∧ m.campaign_id = cid)

def Vault.findKey (v : Vault) (value : String) (et : EntityType)
    (cid : String) : Option Mapping :=
  v.mappings.find? (fun m => m.keyMatches value et cid)

/-- Modelled from the spec: `create_mapping(original_value, entity_type,
campaign_id) -> pseudonym_id` — "deterministic dedup per (value, campaign,
type)". Read-then-create-if-absent; spec §5 requires the storage layer to
serialize concurrent same-key creations, so concurrent calls are modelled as
an arbitrary sequential interleaving of the serialized calls. -/
def create_mapping (v : Vault) (value : String) (et : EntityType)
    (cid : String) : Nat × Vault :=
  match v.findKey value et cid with
  | some m => (m.pid, v)
  | none =>
      (v.next,
       { mappings := { pid := v.next, entity_type := et, original_value := value
                     , campaign_id := cid } :: v.mappings
       , next := v.next + 1 })

/-- At-most-one-mapping-per-identity invariant (spec §3): at most one
mapping per distinct `(original_value, campaign_id, entity_type)` tuple. -/
def Vault.Dedup (v : Vault) : Prop :=
  ∀ (value : String) (et : EntityType) (cid : String),
    v.mappings.countP (fun m => m.keyMatches value et cid) ≤ 1

/-- A batch of `create_mapping` calls applied in sequence (the serialized
schedule of concurrent callers). -/
def applyCreates (v : Vault) : List (String × EntityType × String) → Vault
  | [] => v
  | op :: ops => applyCreates (create_mapping v op.1 op.2.1 op.2.2).2 ops

/-! ## Pseudonymization Engine (spec §4.1)

Modelled from the spec: the backend `pii_service` is not in the source tree.
Free text is modelled as its list of whitespace tokens; the ordered entity
detectors (the more specific email pattern before the phone pattern before
the looser proper-name heuristic, per §4.1; the repository evaluation
document `src/unnamed/part_002` records exactly these three detectors as
implemented) are pattern heuristics on a token. -/

/-- The pseudonym token string for counter `n`: format `P-########`
(spec §3), the counter zero-padded to eight digits. -/
def digitChar : Nat → Char
  | 0 => '0'
  | 1 => '1'
  | 2 => '2'
  | 3 => '3'
  | 4 => '4'
  | 5 => '5'
  | 6 => '6'
  | 7 => '7'
  | 8 => '8'
  | _ => '9'

def natDigitsAux : Nat → Nat → List Char → List Char
  | 0, _, acc => acc
  | _ + 1, 0, acc => acc
  | fuel + 1, n + 1, acc =>
      natDigitsAux fuel ((n + 1) / 10) (digitChar ((n + 1) % 10) :: acc)

def natDigits (n : Nat) : List Char :=
  if n = 0 then ['0'] else natDigitsAux n n []

def pad8 (n : Nat) : List Char :=
  List.replicate (8 - (natDigits n).length) '0' ++ natDigits n

def mkPseudonymId (n : Nat) : String :=
  String.mk ('P' :: '-' :: pad8 n)

/-- Modelled from the spec: the email detector — a token holding an `@`. -/
def looksLikeEmail (s : String) : Bool :=
  s.data.any (fun c => c == '@')

/-- Modelled from the spec: the phone detector — a token of at least seven
characters starting with a digit or `+` and made of digits, `+`, `-`. -/
def looksLikePhone (s : String) : Bool :=
  match s.data with
  | [] => false
  | c :: rest =>
      (c.isDigit || c == '+')
        && rest.all (fun d => d.isDigit || d == '-' || d == '+')
        && decide (7 ≤ s.length)

/-- Modelled from the spec: the proper-name heuristic — a capitalized
purely-alphabetic token of at least two letters. -/
def looksLikeName (s : String) : Bool :=
  match s.data with
  | [] => false
  | c :: rest => c.isUpper && !rest.isEmpty && rest.all Char.isAlpha

/-- Modelled from the spec: the ordered detector set of §4.1 — email before
phone before the looser name heuristic. -/
def detect (s : String) : Option EntityType :=
  if looksLikeEmail s then some EntityType.email
  else if looksLikePhone s then some EntityType.phone
  else if looksLikeName s then some EntityType.name
  else none

/-- Modelled from the spec: one step of the engine — an undetected token is
left in place, a detected span is replaced by the pseudonym token of the
mapping looked up or created in the vault (stable per distinct original
value within a campaign). -/
def pseudonymizeToken (cid : String) (v : Vault) (tok : String) : String × Vault :=
  match detect tok with
  | none => (tok, v)
  | some et =>
      let r := create_mapping v tok et cid
      (mkPseudonymId r.1, r.2)

/-- Result of `pseudonymize(text, campaign_id)`: the sanitized token list,
the count of entities found, and the vault after the synchronous mapping
writes (spec §4.1). -/
structure PseudonymizeResult where
  sanitized : List String
  entities_found : Nat
  vault : Vault
deriving DecidableEq, Repr

/-- Modelled from the spec: `pseudonymize(text: string, campaign_id) ->
(sanitized_text, entities_found)`, scanning the token list in order and
threading the vault through. -/
def pseudonymize (cid : String) (v : Vault) : List String → PseudonymizeResult
  | [] => { sanitized := [], entities_found := 0, vault := v }
  | t :: ts =>
      let s := pseudonymizeToken cid v t
      let r := pseudonymize cid s.2 ts
      { sanitized := s.1 :: r.sanitized
      , entities_found := (if (detect t).isSome then 1 else 0) + r.entities_found
      , vault := r.vault }

/-! ## Vault resolve / Dual-Approval Workflow / Reidentification Service
(spec §4.2, §4.4, §4.5, §7)

Modelled from the spec: the backend `governance_service` and
`audit_service` are not in the source tree. Operations return the new
persisted state together with an `Except` result; the audit-log sink is an
external dependency whose availability is the `auditOk` parameter
(spec §4.5 fail-closed coupling). -/

/-- `resolve_identity(pseudonym_id) -> original_value | not_found`
(spec §4.2). -/
def resolve_identity (v : Vault) (pid : String) : Option String :=
  (v.mappings.find? (fun m => mkPseudonymId m.pid == pid)).map
    (fun m => m.original_value)

/-- Reason codes of a reidentification request (spec §3 and the
`REASON_LABELS` map of `ReidentificationPage`). -/
inductive ReasonCode where
  | safety_concern
  | legal_compliance
  | explicit_consent
  | data_correction
deriving DecidableEq, Repr

/-- A `ReidentificationRequest` (spec §3). -/
structure ReidRequest where
  id : String
  pseudonym_id : String
  reason_code : ReasonCode
  justification : String
  requested_by : String
  status : ReqStatus
  reviewed_by : Option String
  review_notes : Option String
  resolved_by : Option String
deriving DecidableEq, Repr

/-- Audit actions written by the workflow (spec §3 `AuditLogEntry` and the
`ACTION_CONFIG` map of AuditPage). -/
inductive AuditAction where
  | reidentification_request
  | reidentification_approve
  | reidentification_resolve
deriving DecidableEq, Repr

/-- An `AuditLogEntry` as written by this core (spec §3): actor, action,
resource id and success flag; the structured `details` never carry an
original value. -/
structure AuditEntry where
  actor_user_id : String
  actor_role : Role
  action : AuditAction
  resource_id : String
  success : Bool
deriving DecidableEq, Repr

/-- The persisted state the governance core touches: the vault, the
reidentification requests and the append-only audit log. -/
structure GovState where
  vault : Vault
  requests : List ReidRequest
  audit : List AuditEntry
deriving DecidableEq, Repr

/-- Error taxonomy (spec §7). -/
inductive GovError where
  | ValidationError
  | AuthorizationError
  | NotFoundError
  | StateConflictError
  | StorageError
deriving DecidableEq, Repr

def mkEntry (actor : User) (a : AuditAction) (rid : String) (ok : Bool) :
    AuditEntry :=
  { actor_user_id := actor.id, actor_role := actor.role, action := a
  , resource_id := rid, success := ok }

def findReq (st : GovState) (rid : String) : Option ReidRequest :=
  st.requests.find? (fun q => q.id == rid)

def setReq (st : GovState) (r : ReidRequest) : GovState :=
  { st with requests := st.requests.map (fun q => if q.id == r.id then r else q) }

/-- Committing an operation together with its audit entry, through the
possibly-failing sink: on success the updated state `upd` is persisted with
the entry appended; when the sink is down the write fails and the whole
operation is rolled back to the original state `orig` with outcome
`StorageError` (spec §7 `StorageError`: "any operation whose audit write
fails must be treated as if it did not happen"). -/
def audited {α : Type} (auditOk : Bool) (orig upd : GovState) (e : AuditEntry)
    (res : Except GovError α) : GovState × Except GovError α :=
  if auditOk then ({ upd with audit := e :: upd.audit }, res)
  else (orig, Except.error GovError.StorageError)

/-- Roles allowed to review (data-steward-equivalent, spec §4.4; the client
names them admin/data_steward). -/
def canReviewRole (r : Role) : Bool :=
  r == Role.admin || r == Role.data_steward

/-- Roles allowed to resolve (security-officer-equivalent, spec §4.4; the
client names them admin/security_officer). -/
def canResolveRole (r : Role) : Bool :=
  r == Role.admin || r == Role.security_officer

/-- Modelled from the spec: `create_request(pseudonym_id, reason_code,
justification)` → `pending` (spec §4.4), rejecting an empty justification
with `ValidationError` and no audit entry (spec §7), and writing one
`reidentification_request` audit entry on success (§4.4). -/
def create_request (auditOk : Bool) (st : GovState) (actor : User)
    (rid pid : String) (rc : ReasonCode) (justification : String) :
    GovState × Except GovError Unit :=
  if justification == "" then (st, Except.error GovError.ValidationError)
  else if (findReq st rid).isSome then (st, Except.error GovError.ValidationError)
  else
    let req : ReidRequest :=
      { id := rid, pseudonym_id := pid, reason_code := rc
      , justification := justification, requested_by := actor.id
      , status := ReqStatus.pending, reviewed_by := none
      , review_notes := none, resolved_by := none }
    audited auditOk st { st with requests := req :: st.requests }
      (mkEntry actor AuditAction.reidentification_request rid true)
      (Except.ok ())

/-- Modelled from the spec: `review(request_id, approved, notes)` by a
data-steward-equivalent role, requester ≠ reviewer, from `pending` only
(spec §4.4). The self-approval check comes first: `review(request,
reviewer=requester)` raises `AuthorizationError` regardless of role
(spec §8), with an audit entry with `success=false` (spec §7); review on a
request not in `pending` is `StateConflictError` with an audit entry with
`success=false`. -/
def review (auditOk : Bool) (st : GovState) (reviewer : User) (rid : String)
    (approved : Bool) (notes : String) : GovState × Except GovError Unit :=
  match findReq st rid with
  | none => (st, Except.error GovError.NotFoundError)
  | some req =>
      if reviewer.id == req.requested_by then
        audited auditOk st st
          (mkEntry reviewer AuditAction.reidentification_approve rid false)
          (Except.error GovError.AuthorizationError)
      else if !canReviewRole reviewer.role then
        audited auditOk st st
          (mkEntry reviewer AuditAction.reidentification_approve rid false)
          (Except.error GovError.AuthorizationError)
      else if req.status != ReqStatus.pending then
        audited auditOk st st
          (mkEntry reviewer AuditAction.reidentification_approve rid false)
          (Except.error GovError.StateConflictError)
      else
        let req' : ReidRequest :=
          { req with
              status := if approved then ReqStatus.approved else ReqStatus.denied
            , reviewed_by := some reviewer.id, review_notes := some notes }
        audited auditOk st (setReq st req')
          (mkEntry reviewer AuditAction.reidentification_approve rid true)
          (Except.ok ())

/-- Modelled from the spec: `resolve(request_id)` by a
security-officer-equivalent role, only from `approved`; performs the vault
`resolve_identity`, transitions to `resolved`, and returns the identity to
the caller only, never persisting it (spec §4.4, §4.5). Resolve on a
non-approved request is `StateConflictError` with an audit entry with
`success=false` (spec §7); an unknown pseudonym is `NotFoundError` with no
side effects; a failed audit write is fail-closed: the identity is not
returned and the resolution does not happen. -/
def resolveRequest (auditOk : Bool) (st : GovState) (actor : User)
    (rid : String) : GovState × Except GovError String :=
  match findReq st rid with
  | none => (st, Except.error GovError.NotFoundError)
  | some req =>
      if !canResolveRole actor.role then
        audited auditOk st st
          (mkEntry actor AuditAction.reidentification_resolve rid false)
          (Except.error GovError.AuthorizationError)
      else if req.status != ReqStatus.approved then
        audited auditOk st st
          (mkEntry actor AuditAction.reidentification_resolve rid false)
          (Except.error GovError.StateConflictError)
      else
        match resolve_identity st.vault req.pseudonym_id with
        | none => (st, Except.error GovError.NotFoundError)
        | some value =>
            audited auditOk st
              (setReq st { req with status := ReqStatus.resolved
                                  , resolved_by := some actor.id })
              (mkEntry actor AuditAction.reidentification_resolve rid true)
              (Except.ok value)

/-- Modelled from the spec: TTL expiry — an `approved` request not resolved
in time transitions to `expired` (terminal) and can no longer be resolved
(spec §4.4). -/
def expireRequest (st : GovState) (rid : String) : GovState :=
  match findReq st rid with
  | none => st
  | some req =>
      if req.status == ReqStatus.approved then
        setReq st { req with status := ReqStatus.expired }
      else st

/-- The operations of the workflow, for trace reasoning. -/
inductive GovOp where
  | createOp (auditOk : Bool) (actor : User) (rid pid : String)
      (rc : ReasonCode) (justification : String)
  | reviewOp (auditOk : Bool) (reviewer : User) (rid : String)
      (approved : Bool) (notes : String)
  | resolveOp (auditOk : Bool) (actor : User) (rid : String)
  | expireOp (rid : String)
deriving Repr

def applyOp (st : GovState) : GovOp → GovState
  | GovOp.createOp a actor rid pid rc j => (create_request a st actor rid pid rc j).1
  | GovOp.reviewOp a reviewer rid ap notes => (review a st reviewer rid ap notes).1
  | GovOp.resolveOp a actor rid => (resolveRequest a st actor rid).1
  | GovOp.expireOp rid => expireRequest st rid

def applyOps (st : GovState) : List GovOp → GovState
  | [] => st
  | op :: ops => applyOps (applyOp st op) ops

/-- The status of request `rid` in state `st`, when present. -/
def reqStatus (st : GovState) (rid : String) : Option ReqStatus :=
  (findReq st rid).map (fun q => q.status)

/-- The strings held by a stored reidentification request. -/
def reqStrings (q : ReidRequest) : List String :=
  [q.id, q.pseudonym_id, q.justification, q.requested_by]
    ++ q.reviewed_by.toList ++ q.review_notes.toList ++ q.resolved_by.toList

/-- The strings held by a stored audit entry. -/
def entryStrings (e : AuditEntry) : List String :=
  [e.actor_user_id, e.resource_id]

/-- Every string persisted outside the vault: the request fields and the
audit-entry fields (spec §8 non-persistence: after `resolve()` the
original_value must not appear in any persisted store other than the vault
itself). -/
def persistedOutsideVault (st : GovState) : List String :=
  st.requests.flatMap reqStrings ++ st.audit.flatMap entryStrings

/-! ## Theorems -/

/-- C3: the suppression evaluation marks an insight suppressed exactly when
its `source_count` is strictly less than the configured minimum group size,
whose default is 5: `source_count = k < 5` yields suppressed,
`source_count ≥ 5` yields visible, and re-running `evaluate` after
`source_count` crosses the boundary flips the flag accordingly; the
PolicyDialog form default agrees on 5. -/
theorem C3_suppression_threshold :
    (∀ i : Insight,
        ((evaluate defaultSuppressionConfig i).suppressed = true ↔ i.source_count < 5)
        ∧ ((evaluate defaultSuppressionConfig i).suppressed = false ↔ 5 ≤ i.source_count))
    ∧ (∀ (i : Insight) (k : Nat),
        (evaluate defaultSuppressionConfig
            { evaluate defaultSuppressionConfig i with source_count := k }).suppressed
          = decide (k < 5))
    ∧ (∀ (cfg : SuppressionConfig) (i : Insight),
        (evaluate cfg i).suppressed = true ↔ i.source_count < cfg.min_group_size)
    ∧ policyFormDefault.min_group_size = defaultSuppressionConfig.min_group_size := by
  refine ⟨fun i => ⟨?_, ?_⟩, fun i k => ?_, fun cfg i => ?_, rfl⟩ <;>
    simp [evaluate, defaultSuppressionConfig, Nat.not_lt]

/-- C8: a user whose role is not elevated (admin or security-officer)
receives no suppressed insight, and receives exactly the set that would be
returned if the suppressed insights did not exist at all. -/
theorem C8_suppressed_invisible (r : Role) (xs : List Insight)
    (h : canViewSuppressed r = false) :
    (∀ i ∈ listInsights r xs, i.suppressed = false)
    ∧ listInsights r xs = listInsights r (xs.filter (fun i => !i.suppressed)) := by
  constructor
  · intro i hi
    simp only [listInsights, h, Bool.false_eq_true, if_false, List.mem_filter,
      Bool.not_eq_true'] at hi
    exact hi.2
  · simp only [listInsights, h, Bool.false_eq_true, if_false, List.filter_filter]
    congr 1
    funext i
    cases i.suppressed <;> rfl

/-- Witness for C8 at a concrete non-elevated role and insight list. -/
theorem C8_suppressed_invisible_witness :
    listInsights Role.analyst
        [{ id := "i1", source_count := 2, suppressed := true },
         { id := "i2", source_count := 7, suppressed := false }]
      = listInsights Role.analyst
          (List.filter (fun i => !i.suppressed)
            [{ id := "i1", source_count := 2, suppressed := true },
             { id := "i2", source_count := 7, suppressed := false }]) :=
  (C8_suppressed_invisible Role.analyst _ (by decide)).2

/-- C9: in `ReidentificationPage`, an admin user satisfies both
`isDataSteward` and `canResolve` at once, is offered the approve action on
any pending request of a different requester and the resolve action on any
approved request; the resolve condition reads only the request's status and
the user's capabilities, never a reviewer identity, so no second distinct
reviewer is required by the client. -/
theorem C9_admin_dual_capability :
    (∀ uid : String,
        isDataSteward { id := uid, role := Role.admin } = true
        ∧ canResolve { id := uid, role := Role.admin } = true)
    ∧ (∀ (uid : String) (req : ReqView), req.status = ReqStatus.pending →
        req.requested_by ≠ uid →
        showsApproveDeny { id := uid, role := Role.admin } req = true)
    ∧ (∀ (uid : String) (req : ReqView), req.status = ReqStatus.approved →
        showsResolve { id := uid, role := Role.admin } req = true)
    ∧ (∀ (u : User) (req req' : ReqView), req.status = req'.status →
        showsResolve u req = showsResolve u req') := by
  refine ⟨fun uid => ⟨rfl, rfl⟩, fun uid req h1 h2 => ?_, fun uid req h => ?_,
    fun u req req' h => ?_⟩
  · simp [showsApproveDeny, isDataSteward, h1, bne_iff_ne, h2]
  · simp [showsResolve, isDataSteward, canResolve, h]
  · simp [showsResolve, h]

/-- Witness for C9: a concrete admin, a pending request from another user,
and an approved request. -/
theorem C9_admin_dual_capability_witness :
    showsApproveDeny { id := "u1", role := Role.admin }
        { id := "r1", pseudonym_id := "P-00000001", status := ReqStatus.pending
        , requested_by := "u2" } = true
    ∧ showsResolve { id := "u1", role := Role.admin }
        { id := "r1", pseudonym_id := "P-00000001", status := ReqStatus.approved
        , requested_by := "u2" } = true :=
  ⟨C9_admin_dual_capability.2.1 "u1" _ rfl (by decide),
   C9_admin_dual_capability.2.2.1 "u1" _ rfl⟩

/-- C10: on mount, AuditPage issues `GET /audit/` and
`GET /audit/summary?days=30` (and the initial filtered `GET /audit/`)
identically for every logged-in user, regardless of role; the
admin/security_officer role check gates only what is rendered. -/
theorem C10_audit_mount_role_independent :
    (∀ u v : User, (auditPageMount u).requests = (auditPageMount v).requests)
    ∧ (∀ u : User,
        (auditPageMount u).requests = ["/audit/", "/audit/summary?days=30", "/audit/"])
    ∧ (auditPageMount { id := "a", role := Role.admin }).render = AuditRender.fullView
    ∧ (auditPageMount { id := "p", role := Role.participant }).render
        = AuditRender.restricted := by
  refine ⟨fun u v => rfl, fun u => ?_, rfl, rfl⟩
  simp [auditPageMount, buildLogsUrl, initialAuditFilters]

/-! ### Vault dedup lemmas (C4) -/

theorem keyMatches_self (pid : Nat) (value : String) (et : EntityType)
    (cid : String) :
    Mapping.keyMatches
      { pid := pid, entity_type := et, original_value := value, campaign_id := cid }
      value et cid = true := by
  simp [Mapping.keyMatches]

theorem keyMatches_eq_key {m : Mapping} {value : String} {et : EntityType}
    {cid : String} (h : m.keyMatches value et cid = true) :
    m.original_value = value ∧ m.entity_type = et ∧ m.campaign_id = cid := by
  simpa [Mapping.keyMatches] using h

theorem create_mapping_of_found {v : Vault} {value : String} {et : EntityType}
    {cid : String} {m : Mapping} (h : v.findKey value et cid = some m) :
    create_mapping v value et cid = (m.pid, v) := by
  simp [create_mapping, h]

theorem findKey_create_mapping {v : Vault} {value : String} {et : EntityType}
    {cid : String} {m : Mapping} (h : v.findKey value et cid = some m)
    (value' : String) (et' : EntityType) (cid' : String) :
    ((create_mapping v value' et' cid').2).findKey value et cid = some m := by
  cases hf : v.findKey value' et' cid' with
  | some m2 => simpa [create_mapping, hf] using h
  | none =>
      by_cases hk : Mapping.keyMatches
          { pid := v.next, entity_type := et', original_value := value'
          , campaign_id := cid' } value et cid = true
      · obtain ⟨h1, h2, h3⟩ := keyMatches_eq_key hk
        simp only at h1 h2 h3
        subst h1; subst h2; subst h3
        rw [h] at hf
        exact absurd hf (by simp)
      · have hf' : List.find? (fun x => x.keyMatches value' et' cid') v.mappings
            = none := hf
        have h' : List.find? (fun x => x.keyMatches value et cid) v.mappings
            = some m := h
        have hk0 : Mapping.keyMatches
            { pid := v.next, entity_type := et', original_value := value'
            , campaign_id := cid' } value et cid = false := by
          simpa using hk
        simp [create_mapping, Vault.findKey, hf', List.find?_cons, hk0, h']

theorem countP_eq_one_of_findKey {v : Vault} {value : String} {et : EntityType}
    {cid : String} {m : Mapping} (hd : v.Dedup)
    (h : v.findKey value et cid = some m) :
    v.mappings.countP (fun x => x.keyMatches value et cid) = 1 := by
  have h' : List.find? (fun x => x.keyMatches value et cid) v.mappings
      = some m := h
  have hp := List.find?_some h'
  have hmem := List.mem_of_find?_eq_some h'
  have h1 : 0 < v.mappings.countP (fun x => x.keyMatches value et cid) :=
    List.countP_pos_iff.mpr ⟨m, hmem, hp⟩
  have h2 := hd value et cid
  omega

theorem create_mapping_dedup {v : Vault} (hd : v.Dedup) (value : String)
    (et : EntityType) (cid : String) :
    ((create_mapping v value et cid).2).Dedup := by
  cases hf : v.findKey value et cid with
  | some m => simpa [create_mapping, hf] using hd
  | none =>
      intro value1 et1 cid1
      simp only [create_mapping, hf]
      rw [List.countP_cons]
      by_cases hk : Mapping.keyMatches
          { pid := v.next, entity_type := et, original_value := value
          , campaign_id := cid } value1 et1 cid1 = true
      · obtain ⟨h1, h2, h3⟩ := keyMatches_eq_key hk
        simp only at h1 h2 h3
        subst h1; subst h2; subst h3
        have h0 : v.mappings.countP (fun x => x.keyMatches value et cid) = 0 := by
          rw [List.countP_eq_zero]
          intro a ha
          have := List.find?_eq_none.mp hf a ha
          simpa using this
        rw [h0]
        simp [hk]
      · have hk0 : Mapping.keyMatches
            { pid := v.next, entity_type := et, original_value := value
            , campaign_id := cid } value1 et1 cid1 = false := by
          simpa using hk
        rw [hk0]
        simpa using hd value1 et1 cid1

theorem create_mapping_findKey_self (v : Vault) (value : String)
    (et : EntityType) (cid : String) :
    ∃ m, ((create_mapping v value et cid).2).findKey value et cid = some m
      ∧ m.pid = (create_mapping v value et cid).1 := by
  cases hf : v.findKey value et cid with
  | some m =>
      exact ⟨m, by simp [create_mapping, hf], by simp [create_mapping, hf]⟩
  | none =>
      refine ⟨{ pid := v.next, entity_type := et, original_value := value
              , campaign_id := cid }, ?_, by simp [create_mapping, hf]⟩
      have hf' : List.find? (fun x => x.keyMatches value et cid) v.mappings
          = none := hf
      simp [create_mapping, Vault.findKey, hf', List.find?_cons,
        keyMatches_self]

theorem applyCreates_findKey {value : String} {et : EntityType} {cid : String}
    {m : Mapping} :
    ∀ (ops : List (String × EntityType × String)) (v : Vault),
      v.findKey value et cid = some m →
      (applyCreates v ops).findKey value et cid = some m := by
  intro ops
  induction ops with
  | nil => intro v h; exact h
  | cons op ops ih =>
      intro v h
      exact ih _ (findKey_create_mapping h op.1 op.2.1 op.2.2)

theorem applyCreates_dedup :
    ∀ (ops : List (String × EntityType × String)) (v : Vault), v.Dedup →
      (applyCreates v ops).Dedup := by
  intro ops
  induction ops with
  | nil => intro v h; exact h
  | cons op ops ih =>
      intro v h
      exact ih _ (create_mapping_dedup h op.1 op.2.1 op.2.2)

/-- C4: the vault holds at most one `PseudonymMapping` per
`(original_value, campaign_id, entity_type)` tuple, and every
`create_mapping` call with the same tuple — the serialized schedule of N
concurrent calls being an arbitrary interleaving of further creations —
returns the same `pseudonym_id` and leaves the vault unchanged, the vault
holding exactly one mapping for that tuple throughout. -/
theorem C4_create_mapping_dedup_idempotent (v : Vault) (value : String)
    (et : EntityType) (cid : String) (hv : v.Dedup) :
    ((create_mapping v value et cid).2).Dedup
    ∧ ∀ ops : List (String × EntityType × String),
        (applyCreates (create_mapping v value et cid).2 ops).mappings.countP
            (fun m => m.keyMatches value et cid) = 1
        ∧ create_mapping (applyCreates (create_mapping v value et cid).2 ops)
              value et cid
            = ((create_mapping v value et cid).1,
               applyCreates (create_mapping v value et cid).2 ops) := by
  have hd1 : ((create_mapping v value et cid).2).Dedup :=
    create_mapping_dedup hv value et cid
  refine ⟨hd1, fun ops => ?_⟩
  obtain ⟨m, hm, hpid⟩ := create_mapping_findKey_self v value et cid
  have hfind := applyCreates_findKey ops _ hm
  have hded := applyCreates_dedup ops _ hd1
  refine ⟨countP_eq_one_of_findKey hded hfind, ?_⟩
  rw [create_mapping_of_found hfind, hpid]

/-- Witness for C4: the empty vault, the spec §8 scenario value
`juan@example.com` in campaign `C1`, and a further interleaved creation. -/
theorem C4_create_mapping_dedup_idempotent_witness :
    create_mapping
        (applyCreates
          (create_mapping { mappings := [], next := 0 } "juan@example.com"
              EntityType.email "C1").2
          [("juan@example.com", EntityType.email, "C1"),
           ("maria@example.com", EntityType.email, "C1")])
        "juan@example.com" EntityType.email "C1"
      = ((create_mapping { mappings := [], next := 0 } "juan@example.com"
            EntityType.email "C1").1,
         applyCreates
          (create_mapping { mappings := [], next := 0 } "juan@example.com"
              EntityType.email "C1").2
          [("juan@example.com", EntityType.email, "C1"),
           ("maria@example.com", EntityType.email, "C1")]) :=
  ((C4_create_mapping_dedup_idempotent { mappings := [], next := 0 }
      "juan@example.com" EntityType.email "C1"
      (fun value et cid => by simp [List.countP_nil])).2
    [("juan@example.com", EntityType.email, "C1"),
     ("maria@example.com", EntityType.email, "C1")]).2

/-! ### Pseudonymization idempotence lemmas (C7) -/

theorem digitChar_good (k : Nat) :
    digitChar k ≠ '@' ∧ (digitChar k).isAlpha = false := by
  rcases k with _|_|_|_|_|_|_|_|_|n
  all_goals first
    | exact ⟨by decide, by decide⟩
    | exact ⟨show ('9' : Char) ≠ '@' by decide,
             show ('9' : Char).isAlpha = false by decide⟩

theorem mem_natDigitsAux (fuel : Nat) :
    ∀ n acc c, c ∈ natDigitsAux fuel n acc → (∃ k, c = digitChar k) ∨ c ∈ acc := by
  induction fuel with
  | zero =>
      intro n acc c hc
      exact Or.inr hc
  | succ fuel ih =>
      intro n acc c hc
      match n with
      | 0 => exact Or.inr hc
      | m + 1 =>
          rw [natDigitsAux] at hc
          rcases ih ((m + 1) / 10) _ c hc with h | h
          · exact Or.inl h
          · rcases List.mem_cons.mp h with h | h
            · exact Or.inl ⟨(m + 1) % 10, h⟩
            · exact Or.inr h

theorem pad8_good {n : Nat} {c : Char} (hc : c ∈ pad8 n) :
    c ≠ '@' ∧ c.isAlpha = false := by
  rcases List.mem_append.mp hc with h | h
  · rw [List.eq_of_mem_replicate h]
    exact ⟨by decide, by decide⟩
  · unfold natDigits at h
    by_cases h0 : n = 0
    · simp [h0] at h
      rw [h]
      exact ⟨by decide, by decide⟩
    · simp only [h0, if_false] at h
      rcases mem_natDigitsAux n n [] c h with ⟨k, hk⟩ | h
      · rw [hk]; exact digitChar_good k
      · simp at h

theorem looksLikeEmail_mkPseudonymId (n : Nat) :
    looksLikeEmail (mkPseudonymId n) = false := by
  simp only [looksLikeEmail]
  rw [List.any_eq_false]
  intro c hc
  simp only [mkPseudonymId] at hc
  rcases List.mem_cons.mp hc with h | h
  · rw [h]; decide
  · rcases List.mem_cons.mp h with h | h
    · rw [h]; decide
    · have := (pad8_good h).1
      simp [this]

theorem looksLikePhone_mkPseudonymId (n : Nat) :
    looksLikePhone (mkPseudonymId n) = false := by
  have h1 : (('P' : Char).isDigit || ('P' : Char) == '+') = false := by decide
  simp [looksLikePhone, mkPseudonymId, h1]

theorem looksLikeName_mkPseudonymId (n : Nat) :
    looksLikeName (mkPseudonymId n) = false := by
  have h1 : ('-' : Char).isAlpha = false := by decide
  simp [looksLikeName, mkPseudonymId, List.all_cons, h1]

theorem detect_mkPseudonymId (n : Nat) : detect (mkPseudonymId n) = none := by
  simp [detect, looksLikeEmail_mkPseudonymId, looksLikePhone_mkPseudonymId,
    looksLikeName_mkPseudonymId]

theorem detect_pseudonymizeToken (cid : String) (v : Vault) (t : String) :
    detect ((pseudonymizeToken cid v t).1) = none ∨
      ((pseudonymizeToken cid v t).1 = t ∧ detect t = none) := by
  cases hd : detect t with
  | none => exact Or.inr ⟨by simp [pseudonymizeToken, hd], rfl⟩
  | some et =>
      refine Or.inl ?_
      simp only [pseudonymizeToken, hd]
      exact detect_mkPseudonymId _

theorem detect_pseudonymizeToken_none (cid : String) (v : Vault) (t : String) :
    detect ((pseudonymizeToken cid v t).1) = none := by
  rcases detect_pseudonymizeToken cid v t with h | ⟨h1, h2⟩
  · exact h
  · rw [h1]; exact h2

theorem pseudonymize_sanitized_clean :
    ∀ (ts : List String) (cid : String) (v : Vault),
      ∀ s ∈ (pseudonymize cid v ts).sanitized, detect s = none := by
  intro ts
  induction ts with
  | nil => intro cid v s hs; simp [pseudonymize] at hs
  | cons t ts ih =>
      intro cid v s hs
      simp only [pseudonymize, List.mem_cons] at hs
      rcases hs with h | h
      · rw [h]; exact detect_pseudonymizeToken_none cid v t
      · exact ih cid _ s h

theorem pseudonymize_clean_id :
    ∀ (ts : List String) (cid : String) (v : Vault),
      (∀ s ∈ ts, detect s = none) →
      pseudonymize cid v ts = { sanitized := ts, entities_found := 0, vault := v } := by
  intro ts
  induction ts with
  | nil => intro cid v _; rfl
  | cons t ts ih =>
      intro cid v h
      have ht : detect t = none := h t (List.mem_cons_self t ts)
      have htok : pseudonymizeToken cid v t = (t, v) := by
        simp [pseudonymizeToken, ht]
      simp only [pseudonymize, htok, ht,
        ih cid v (fun s hs => h s (List.mem_cons_of_mem t hs))]
      simp

/-- C7: pseudonymization is idempotent — re-running `pseudonymize` on the
sanitized output of a previous run (with any campaign and any vault state)
returns that output unchanged, finds no entities and writes nothing to the
vault, because pseudonym tokens `P-########` match no detector pattern. -/
theorem C7_pseudonymize_idempotent (cid cid2 : String) (v v2 : Vault)
    (ts : List String) :
    pseudonymize cid2 v2 (pseudonymize cid v ts).sanitized
      = { sanitized := (pseudonymize cid v ts).sanitized
        , entities_found := 0, vault := v2 }
    ∧ ∀ n, detect (mkPseudonymId n) = none := by
  exact ⟨pseudonymize_clean_id _ cid2 v2 (pseudonymize_sanitized_clean ts cid v),
    detect_mkPseudonymId⟩

/-! ### Governance workflow lemmas and theorems (C1, C2, C5, C6) -/

theorem audited_same_requests {α : Type} (auditOk : Bool) (st : GovState)
    (e : AuditEntry) (res : Except GovError α) :
    ((audited auditOk st st e res).1).requests = st.requests := by
  unfold audited
  split <;> rfl

theorem audited_true {α : Type} (orig upd : GovState) (e : AuditEntry)
    (res : Except GovError α) :
    audited true orig upd e res = ({ upd with audit := e :: upd.audit }, res) := rfl

theorem audited_false {α : Type} (orig upd : GovState) (e : AuditEntry)
    (res : Except GovError α) :
    audited false orig upd e res = (orig, Except.error GovError.StorageError) := rfl

theorem findReq_id {st : GovState} {rid : String} {q : ReidRequest}
    (h : findReq st rid = some q) : q.id = rid := by
  have h' : List.find? (fun x => x.id == rid) st.requests = some q := h
  have hp := List.find?_some h'
  simpa [beq_iff_eq] using hp

theorem findReq_mem {st : GovState} {rid : String} {q : ReidRequest}
    (h : findReq st rid = some q) : q ∈ st.requests := by
  have h' : List.find? (fun x => x.id == rid) st.requests = some q := h
  exact List.mem_of_find?_eq_some h'

/-- C1: a review by the requester is rejected with `AuthorizationError`
regardless of the reviewer's role, leaves every request (in particular its
status) unchanged, and writes an audit entry with `success=false`; in the
client, the approve/deny controls are offered only when the request is
pending and `requested_by` differs from the current user's id. -/
theorem C1_self_approval_forbidden :
    (∀ (st : GovState) (reviewer : User) (rid : String) (approved : Bool)
        (notes : String) (req : ReidRequest) (auditOk : Bool),
        findReq st rid = some req → reviewer.id = req.requested_by →
        (review true st reviewer rid approved notes).2
            = Except.error GovError.AuthorizationError
        ∧ (review auditOk st reviewer rid approved notes).1.requests = st.requests
        ∧ ∃ e, (review true st reviewer rid approved notes).1.audit = e :: st.audit
            ∧ e.success = false)
    ∧ (∀ (u : User) (r : ReqView), showsApproveDeny u r = true →
        r.status = ReqStatus.pending ∧ r.requested_by ≠ u.id) := by
  constructor
  · intro st reviewer rid approved notes req auditOk hfind hself
    have hbeq : (reviewer.id == req.requested_by) = true := beq_iff_eq.mpr hself
    refine ⟨?_, ?_, ?_⟩
    · simp [review, hfind, hbeq, audited]
    · simp only [review, hfind, hbeq, if_true]
      exact audited_same_requests auditOk st _ _
    · exact ⟨mkEntry reviewer AuditAction.reidentification_approve rid false,
        by simp [review, hfind, hbeq, audited], rfl⟩
  · intro u r h
    simp only [showsApproveDeny, Bool.and_eq_true, beq_iff_eq, bne_iff_ne] at h
    exact ⟨h.2.1, h.2.2⟩

/-- Witness for C1: a concrete pending request reviewed by its own
requester (an admin), and the client predicate at a concrete view. -/
theorem C1_self_approval_forbidden_witness :
    (review true
        { vault := { mappings := [], next := 0 }
        , requests := [{ id := "r1", pseudonym_id := "P-00000000"
                       , reason_code := ReasonCode.safety_concern
                       , justification := "j", requested_by := "u1"
                       , status := ReqStatus.pending, reviewed_by := none
                       , review_notes := none, resolved_by := none }]
        , audit := [] }
        { id := "u1", role := Role.admin } "r1" true "").2
      = Except.error GovError.AuthorizationError
    ∧ (ReqStatus.pending = ReqStatus.pending ∧ "u2" ≠ "u1") :=
  ⟨(C1_self_approval_forbidden.1
      { vault := { mappings := [], next := 0 }
      , requests := [{ id := "r1", pseudonym_id := "P-00000000"
                     , reason_code := ReasonCode.safety_concern
                     , justification := "j", requested_by := "u1"
                     , status := ReqStatus.pending, reviewed_by := none
                     , review_notes := none, resolved_by := none }]
      , audit := [] }
      { id := "u1", role := Role.admin } "r1" true ""
      { id := "r1", pseudonym_id := "P-00000000"
      , reason_code := ReasonCode.safety_concern
      , justification := "j", requested_by := "u1"
      , status := ReqStatus.pending, reviewed_by := none
      , review_notes := none, resolved_by := none } true (by decide) rfl).1,
   C1_self_approval_forbidden.2 { id := "u1", role := Role.admin }
      { id := "r1", pseudonym_id := "P-00000000", status := ReqStatus.pending
      , requested_by := "u2" } (by decide)⟩

/-- C2: with the audit-write dependency failing, `resolveRequest` leaves the
persisted state untouched and never returns identity data to the caller
(fail-closed): the resolution did not happen from the caller's
perspective. -/
theorem C2_fail_closed_audit (st : GovState) (actor : User) (rid : String) :
    (resolveRequest false st actor rid).1 = st
    ∧ ∀ value : String, (resolveRequest false st actor rid).2 ≠ Except.ok value := by
  unfold resolveRequest
  cases hf : findReq st rid with
  | none => exact ⟨rfl, fun value h => by simp at h⟩
  | some req =>
      by_cases hrole : (!canResolveRole actor.role) = true
      · simp [hrole, audited]
      · by_cases hst : (req.status != ReqStatus.approved) = true
        · simp [hrole, hst, audited]
        · cases hv : resolve_identity st.vault req.pseudonym_id with
          | none => simp [hrole, hst, hv]
          | some value => simp [hrole, hst, hv, audited]

theorem replace_id (r a : ReidRequest) :
    (if a.id == r.id then r else a).id = a.id := by
  by_cases h : (a.id == r.id) = true
  · simp only [h, if_true]
    exact (beq_iff_eq.mp h).symm
  · simp only [Bool.not_eq_true] at h
    simp [h]

theorem find?_id_map (l : List ReidRequest) (r : ReidRequest) (rid : String) :
    (l.map (fun q => if q.id == r.id then r else q)).find? (fun q => q.id == rid)
      = (l.find? (fun q => q.id == rid)).map
          (fun q => if q.id == r.id then r else q) := by
  induction l with
  | nil => rfl
  | cons a l ih =>
      rw [List.map_cons, List.find?_cons, List.find?_cons]
      have hfa : ((if a.id == r.id then r else a).id == rid) = (a.id == rid) := by
        rw [replace_id]
      rw [hfa]
      cases a.id == rid with
      | true => rfl
      | false => exact ih

theorem findReq_setReq (st : GovState) (r : ReidRequest) (rid : String) :
    findReq (setReq st r) rid
      = (findReq st rid).map (fun q => if q.id == r.id then r else q) := by
  unfold findReq setReq
  exact find?_id_map st.requests r rid

theorem reqStatus_requests_eq {st1 st2 : GovState} (rid : String)
    (h : st1.requests = st2.requests) : reqStatus st1 rid = reqStatus st2 rid := by
  unfold reqStatus findReq
  rw [h]

/-- Characterization of how one workflow operation can change the requests
store: either it leaves it untouched, or it prepends a fresh `pending`
request, or it rewrites exactly one existing request, and the rewritten
status is `approved`/`denied` (review), `expired` (TTL), or `resolved` —
the latter only when the request was `approved` before. -/
theorem applyOp_requests_cases (st : GovState) (op : GovOp) :
    (applyOp st op).requests = st.requests
    ∨ (∃ rNew, rNew.status = ReqStatus.pending
        ∧ (applyOp st op).requests = rNew :: st.requests)
    ∨ (∃ req r', findReq st req.id = some req ∧ r'.id = req.id
        ∧ (r'.status = ReqStatus.approved ∨ r'.status = ReqStatus.denied
            ∨ r'.status = ReqStatus.expired
            ∨ (r'.status = ReqStatus.resolved ∧ req.status = ReqStatus.approved))
        ∧ (applyOp st op).requests
            = st.requests.map (fun q => if q.id == r'.id then r' else q)) := by
  cases op with
  | createOp a actor rid0 pid rc j =>
      simp only [applyOp, create_request]
      split
      · left; rfl
      · split
        · left; rfl
        · cases a with
          | false => left; rw [audited_false]
          | true =>
              right; left
              refine ⟨{ id := rid0, pseudonym_id := pid, reason_code := rc
                      , justification := j, requested_by := actor.id
                      , status := ReqStatus.pending, reviewed_by := none
                      , review_notes := none, resolved_by := none }, rfl, ?_⟩
              rw [audited_true]
  | reviewOp a reviewer rid0 approved notes =>
      simp only [applyOp, review]
      split
      · left; rfl
      · rename_i req hf
        split
        · left; exact audited_same_requests a st _ _
        · split
          · left; exact audited_same_requests a st _ _
          · split
            · left; exact audited_same_requests a st _ _
            · cases a with
              | false => left; rw [audited_false]
              | true =>
                  right; right
                  have hid : req.id = rid0 := findReq_id hf
                  refine ⟨req,
                    { req with
                        status := if approved then ReqStatus.approved
                                  else ReqStatus.denied
                      , reviewed_by := some reviewer.id
                      , review_notes := some notes },
                    by rw [hid]; exact hf, rfl, ?_, ?_⟩
                  · cases approved
                    · right; left; rfl
                    · left; rfl
                  · rw [audited_true]
                    rfl
  | resolveOp a actor rid0 =>
      simp only [applyOp, resolveRequest]
      split
      · left; rfl
      · rename_i req hf
        split
        · left; exact audited_same_requests a st _ _
        · split
          · left; exact audited_same_requests a st _ _
          · rename_i hrole hst
            split
            · left; rfl
            · cases a with
              | false => left; rw [audited_false]
              | true =>
                  right; right
                  have hid : req.id = rid0 := findReq_id hf
                  have happr : req.status = ReqStatus.approved := by
                    simpa using hst
                  refine ⟨req,
                    { req with status := ReqStatus.resolved
                             , resolved_by := some actor.id },
                    by rw [hid]; exact hf, rfl,
                    Or.inr (Or.inr (Or.inr ⟨rfl, happr⟩)), ?_⟩
                  rw [audited_true]
                  rfl
  | expireOp rid0 =>
      simp only [applyOp, expireRequest]
      split
      · left; rfl
      · rename_i req hf
        split
        · right; right
          have hid : req.id = rid0 := findReq_id hf
          refine ⟨req, { req with status := ReqStatus.expired },
            by rw [hid]; exact hf, rfl, Or.inr (Or.inr (Or.inl rfl)), ?_⟩
          rfl
        · left; rfl

/-- One step: a request's status can become `resolved` only if it already
was `resolved`, or was `approved` before the step. -/
theorem applyOp_resolved (st : GovState) (op : GovOp) (rid : String)
    (h : reqStatus (applyOp st op) rid = some ReqStatus.resolved) :
    reqStatus st rid = some ReqStatus.resolved
      ∨ reqStatus st rid = some ReqStatus.approved := by
  rcases applyOp_requests_cases st op with hc | ⟨rNew, hpend, hc⟩ |
    ⟨req, r', hfreq, hid, hstat, hc⟩
  · left
    rw [← reqStatus_requests_eq rid hc]
    exact h
  · left
    unfold reqStatus findReq at h ⊢
    rw [hc, List.find?_cons] at h
    by_cases hr : (rNew.id == rid) = true
    · rw [hr] at h
      simp only [Option.map_some'] at h
      have hps : rNew.status = ReqStatus.resolved := Option.some.inj h
      rw [hpend] at hps
      exact absurd hps (by decide)
    · rw [Bool.not_eq_true] at hr
      rw [hr] at h
      exact h
  · unfold reqStatus findReq at h ⊢
    rw [hc, find?_id_map] at h
    cases hq : st.requests.find? (fun q => q.id == rid) with
    | none => rw [hq] at h; simp at h
    | some q =>
        rw [hq] at h
        rw [Option.map_some'] at h
        have hqid : q.id = rid := by
          have hp := List.find?_some hq
          simpa [beq_iff_eq] using hp
        by_cases hqr : (q.id == r'.id) = true
        · rw [if_pos hqr] at h
          have hr' : r'.status = ReqStatus.resolved := Option.some.inj h
          rcases hstat with h1 | h1 | h1 | ⟨h1, h2⟩
          · rw [h1] at hr'; exact absurd hr' (by decide)
          · rw [h1] at hr'; exact absurd hr' (by decide)
          · rw [h1] at hr'; exact absurd hr' (by decide)
          · right
            have hrid : rid = req.id := by
              rw [← hqid]
              exact (beq_iff_eq.mp hqr).trans hid
            have hq' : st.requests.find? (fun q => q.id == rid) = some req := by
              rw [hrid]
              exact hfreq
            rw [hq] at hq'
            rw [Option.map_some', Option.some.inj hq', h2]
        · rw [if_neg hqr] at h
          left
          exact h

/-- Trace form: if a request's status was not `resolved` and becomes
`resolved` after a batch of operations, then at some intermediate point its
status was `approved`. -/
theorem resolved_requires_approved :
    ∀ (ops : List GovOp) (st : GovState) (rid : String),
      reqStatus st rid ≠ some ReqStatus.resolved →
      reqStatus (applyOps st ops) rid = some ReqStatus.resolved →
      ∃ pre post, ops = pre ++ post
        ∧ reqStatus (applyOps st pre) rid = some ReqStatus.approved := by
  intro ops
  induction ops with
  | nil => intro st rid h1 h2; exact absurd h2 h1
  | cons op ops ih =>
      intro st rid h1 h2
      by_cases hres : reqStatus (applyOp st op) rid = some ReqStatus.resolved
      · rcases applyOp_resolved st op rid hres with h | h
        · exact absurd h h1
        · exact ⟨[], op :: ops, rfl, h⟩
      · rcases ih (applyOp st op) rid hres h2 with ⟨pre, post, hsplit, happr⟩
        exact ⟨op :: pre, post, by rw [List.cons_append, hsplit], happr⟩

/-- C5: a reidentification request never reaches `resolved` without having
been `approved`: a resolve attempted on a non-approved request, and a
review attempted on an already-terminal request, are rejected with
`StateConflictError` and an audit entry with `success=false`; along any
trace of workflow operations, a request that ends up `resolved` passed
through `approved`; and the client offers the resolve action only for
requests whose status is `approved`. -/
theorem C5_resolved_only_after_approved :
    (∀ (st : GovState) (actor : User) (rid : String) (req : ReidRequest),
        findReq st rid = some req → canResolveRole actor.role = true →
        req.status ≠ ReqStatus.approved →
        (resolveRequest true st actor rid).2
            = Except.error GovError.StateConflictError
        ∧ ∃ e, (resolveRequest true st actor rid).1.audit = e :: st.audit
            ∧ e.success = false)
    ∧ (∀ (st : GovState) (reviewer : User) (rid : String) (approved : Bool)
          (notes : String) (req : ReidRequest),
        findReq st rid = some req → reviewer.id ≠ req.requested_by →
        canReviewRole reviewer.role = true →
        (req.status = ReqStatus.denied ∨ req.status = ReqStatus.resolved
          ∨ req.status = ReqStatus.expired) →
        (review true st reviewer rid approved notes).2
            = Except.error GovError.StateConflictError
        ∧ ∃ e, (review true st reviewer rid approved notes).1.audit = e :: st.audit
            ∧ e.success = false)
    ∧ (∀ (ops : List GovOp) (st : GovState) (rid : String),
        reqStatus st rid ≠ some ReqStatus.resolved →
        reqStatus (applyOps st ops) rid = some ReqStatus.resolved →
        ∃ pre post, ops = pre ++ post
          ∧ reqStatus (applyOps st pre) rid = some ReqStatus.approved)
    ∧ (∀ (u : User) (r : ReqView), showsResolve u r = true →
        r.status = ReqStatus.approved) := by
  refine ⟨?_, ?_, resolved_requires_approved, ?_⟩
  · intro st actor rid req hfind hrole hne
    have hb : (!canResolveRole actor.role) = false := by rw [hrole]; rfl
    have hs : (req.status != ReqStatus.approved) = true := by
      simpa using hne
    refine ⟨?_, mkEntry actor AuditAction.reidentification_resolve rid false, ?_, rfl⟩
    · simp [resolveRequest, hfind, hb, hs, audited]
    · simp [resolveRequest, hfind, hb, hs, audited]
  · intro st reviewer rid approved notes req hfind hne hrole hterm
    have hb1 : (reviewer.id == req.requested_by) = false := by
      simpa using hne
    have hb2 : (!canReviewRole reviewer.role) = false := by rw [hrole]; rfl
    have hb3 : (req.status != ReqStatus.pending) = true := by
      rcases hterm with h | h | h <;> rw [h] <;> rfl
    refine ⟨?_, mkEntry reviewer AuditAction.reidentification_approve rid false, ?_, rfl⟩
    · simp [review, hfind, hb1, hb2, hb3, audited]
    · simp [review, hfind, hb1, hb2, hb3, audited]
  · intro u r h
    simp only [showsResolve, Bool.and_eq_true, beq_iff_eq] at h
    exact h.2.1

/-- Witness for C5: a concrete rejected resolve on a pending request, a
concrete resolve trace through `approved`, and the client predicate. -/
theorem C5_resolved_only_after_approved_witness :
    ((resolveRequest true
        { vault := { mappings := [], next := 0 }
        , requests := [{ id := "r1", pseudonym_id := "P-00000000"
                       , reason_code := ReasonCode.safety_concern
                       , justification := "j", requested_by := "u1"
                       , status := ReqStatus.pending, reviewed_by := none
                       , review_notes := none, resolved_by := none }]
        , audit := [] }
        { id := "u3", role := Role.security_officer } "r1").2
      = Except.error GovError.StateConflictError)
    ∧ (∃ pre post,
        [GovOp.resolveOp true { id := "u3", role := Role.security_officer } "r1"]
          = pre ++ post
        ∧ reqStatus
            (applyOps
              { vault := { mappings := [{ pid := 0, entity_type := EntityType.email
                                        , original_value := "juan@example.com"
                                        , campaign_id := "C1" }], next := 1 }
              , requests := [{ id := "r1", pseudonym_id := "P-00000000"
                             , reason_code := ReasonCode.safety_concern
                             , justification := "j", requested_by := "u1"
                             , status := ReqStatus.approved
                             , reviewed_by := some "u2"
                             , review_notes := some "ok", resolved_by := none }]
              , audit := [] }
              pre) "r1" = some ReqStatus.approved)
    ∧ ReqStatus.approved = ReqStatus.approved :=
  ⟨(C5_resolved_only_after_approved.1
      { vault := { mappings := [], next := 0 }
      , requests := [{ id := "r1", pseudonym_id := "P-00000000"
                     , reason_code := ReasonCode.safety_concern
                     , justification := "j", requested_by := "u1"
                     , status := ReqStatus.pending, reviewed_by := none
                     , review_notes := none, resolved_by := none }]
      , audit := [] }
      { id := "u3", role := Role.security_officer } "r1"
      { id := "r1", pseudonym_id := "P-00000000"
      , reason_code := ReasonCode.safety_concern
      , justification := "j", requested_by := "u1"
      , status := ReqStatus.pending, reviewed_by := none
      , review_notes := none, resolved_by := none }
      (by decide) (by decide) (by decide)).1,
   C5_resolved_only_after_approved.2.2.1
      [GovOp.resolveOp true { id := "u3", role := Role.security_officer } "r1"]
      { vault := { mappings := [{ pid := 0, entity_type := EntityType.email
                                , original_value := "juan@example.com"
                                , campaign_id := "C1" }], next := 1 }
      , requests := [{ id := "r1", pseudonym_id := "P-00000000"
                     , reason_code := ReasonCode.safety_concern
                     , justification := "j", requested_by := "u1"
                     , status := ReqStatus.approved
                     , reviewed_by := some "u2"
                     , review_notes := some "ok", resolved_by := none }]
      , audit := [] }
      "r1" (by decide) (by decide),
   C5_resolved_only_after_approved.2.2.2
      { id := "u0", role := Role.admin }
      { id := "r1", pseudonym_id := "P-00000000", status := ReqStatus.approved
      , requested_by := "u1" } (by decide)⟩

/-- Characterization of a successful resolve: the request was found and
`approved`, the vault resolved the pseudonym, and the whole result state is
the original state with exactly the one status transition and the one audit
entry. -/
theorem resolveRequest_ok {st : GovState} {actor : User} {rid value : String}
    (h : (resolveRequest true st actor rid).2 = Except.ok value) :
    ∃ req, findReq st rid = some req ∧ req.status = ReqStatus.approved
      ∧ resolve_identity st.vault req.pseudonym_id = some value
      ∧ resolveRequest true st actor rid
          = ({ vault := st.vault
             , requests := st.requests.map (fun q =>
                 if q.id == req.id then
                   { req with status := ReqStatus.resolved
                            , resolved_by := some actor.id } else q)
             , audit := mkEntry actor AuditAction.reidentification_resolve rid true
                 :: st.audit }
            , Except.ok value) := by
  unfold resolveRequest at h
  split at h
  · exact absurd h (by simp)
  · rename_i req hf
    split at h
    · rw [audited_true] at h
      exact absurd h (by simp)
    · rename_i hrole
      split at h
      · rw [audited_true] at h
        exact absurd h (by simp)
      · rename_i hst
        split at h
        · exact absurd h (by simp)
        · rename_i v0 hv
          rw [audited_true] at h
          have hval : v0 = value := Except.ok.inj h
          have happr : req.status = ReqStatus.approved := by simpa using hst
          have hrole' : (!canResolveRole actor.role) = false := by
            simpa using hrole
          have hst' : (req.status != ReqStatus.approved) = false := by
            simpa using hst
          subst hval
          refine ⟨req, hf, happr, hv, ?_⟩
          simp only [resolveRequest, hf, hrole', hst', hv, audited_true, setReq,
            Bool.false_eq_true, if_false]

theorem mem_persisted_req {st : GovState} {q : ReidRequest} {value : String}
    (hq : q ∈ st.requests) (hv : value ∈ reqStrings q) :
    value ∈ persistedOutsideVault st := by
  unfold persistedOutsideVault
  exact List.mem_append.mpr (Or.inl (List.mem_flatMap.mpr ⟨q, hq, hv⟩))

theorem mem_persisted_audit {st : GovState} {e : AuditEntry} {value : String}
    (he : e ∈ st.audit) (hv : value ∈ entryStrings e) :
    value ∈ persistedOutsideVault st := by
  unfold persistedOutsideVault
  exact List.mem_append.mpr (Or.inr (List.mem_flatMap.mpr ⟨e, he, hv⟩))

theorem reqStrings_resolved_sub (req : ReidRequest) (aid value : String)
    (h : value ∈ reqStrings
        { req with status := ReqStatus.resolved, resolved_by := some aid }) :
    value ∈ reqStrings req ∨ value = aid := by
  simp only [reqStrings, List.mem_append, List.mem_cons, List.mem_singleton,
    Option.mem_toList, Option.mem_def, Option.some.injEq] at h ⊢
  aesop

/-- C6: a successful resolve leaves the vault untouched, changes exactly the
request's status (plus `resolved_by`) and appends exactly one audit entry;
the resolved original value is returned to the caller only — if it was not
persisted outside the vault before the call (and is not the caller's user
id), it is not persisted outside the vault after it. -/
theorem C6_resolve_nonpersistence (st : GovState) (actor : User)
    (rid value : String)
    (h : (resolveRequest true st actor rid).2 = Except.ok value) :
    (resolveRequest true st actor rid).1.vault = st.vault
    ∧ (∃ e, (resolveRequest true st actor rid).1.audit = e :: st.audit
        ∧ e.success = true ∧ e.action = AuditAction.reidentification_resolve)
    ∧ (∃ req, findReq st rid = some req ∧ req.status = ReqStatus.approved
        ∧ (resolveRequest true st actor rid).1.requests
            = st.requests.map (fun q =>
                if q.id == req.id then
                  { req with status := ReqStatus.resolved
                           , resolved_by := some actor.id } else q))
    ∧ (value ∉ persistedOutsideVault st → value ≠ actor.id →
        value ∉ persistedOutsideVault (resolveRequest true st actor rid).1) := by
  obtain ⟨req, hf, happr, hv, heq⟩ := resolveRequest_ok h
  rw [heq]
  refine ⟨rfl,
    ⟨mkEntry actor AuditAction.reidentification_resolve rid true, rfl, rfl, rfl⟩,
    ⟨req, hf, happr, rfl⟩, ?_⟩
  intro hnotin hne hmem
  have hreqmem : req ∈ st.requests := findReq_mem hf
  have hridid : req.id = rid := findReq_id hf
  unfold persistedOutsideVault at hmem
  rcases List.mem_append.mp hmem with hside | hside
  · obtain ⟨q', hq', hvq⟩ := List.mem_flatMap.mp hside
    obtain ⟨q, hq, hfq⟩ := List.mem_map.mp hq'
    by_cases hqid : (q.id == req.id) = true
    · rw [if_pos hqid] at hfq
      rw [← hfq] at hvq
      rcases reqStrings_resolved_sub req actor.id value hvq with hin | hin
      · exact hnotin (mem_persisted_req hreqmem hin)
      · exact hne hin
    · rw [if_neg hqid] at hfq
      rw [← hfq] at hvq
      exact hnotin (mem_persisted_req hq hvq)
  · obtain ⟨e, he, hve⟩ := List.mem_flatMap.mp hside
    rcases List.mem_cons.mp he with he1 | he1
    · rw [he1] at hve
      simp only [entryStrings, mkEntry, List.mem_cons, List.mem_singleton] at hve
      rcases hve with hve | hve | hve
      · exact hne hve
      · rw [hve] at hnotin
        refine hnotin (mem_persisted_req hreqmem ?_)
        rw [← hridid]
        simp [reqStrings]
      · simp at hve
    · exact hnotin (mem_persisted_audit he1 hve)

/-- Witness for C6: a concrete approved request resolved by a concrete
security officer against a one-mapping vault. -/
theorem C6_resolve_nonpersistence_witness :
    (resolveRequest true
        { vault := { mappings := [{ pid := 0, entity_type := EntityType.email
                                  , original_value := "juan@example.com"
                                  , campaign_id := "C1" }], next := 1 }
        , requests := [{ id := "r1", pseudonym_id := "P-00000000"
                       , reason_code := ReasonCode.safety_concern
                       , justification := "j", requested_by := "u1"
                       , status := ReqStatus.approved, reviewed_by := some "u2"
                       , review_notes := some "ok", resolved_by := none }]
        , audit := [] }
        { id := "u3", role := Role.security_officer } "r1").1.vault
      = ({ vault := { mappings := [{ pid := 0, entity_type := EntityType.email
                                   , original_value := "juan@example.com"
                                   , campaign_id := "C1" }], next := 1 }
         , requests := [{ id := "r1", pseudonym_id := "P-00000000"
                        , reason_code := ReasonCode.safety_concern
                        , justification := "j", requested_by := "u1"
                        , status := ReqStatus.approved, reviewed_by := some "u2"
                        , review_notes := some "ok", resolved_by := none }]
         , audit := [] } : GovState).vault :=
  (C6_resolve_nonpersistence
    { vault := { mappings := [{ pid := 0, entity_type := EntityType.email
                              , original_value := "juan@example.com"
                              , campaign_id := "C1" }], next := 1 }
    , requests := [{ id := "r1", pseudonym_id := "P-00000000"
                   , reason_code := ReasonCode.safety_concern
                   , justification := "j", requested_by := "u1"
                   , status := ReqStatus.approved, reviewed_by := some "u2"
                   , review_notes := some "ok", resolved_by := none }]
    , audit := [] }
    { id := "u3", role := Role.security_officer } "r1" "juan@example.com"
    rfl).1

end DigiKawsay
